import Mathlib

/-!
# Verification of the Orbital effect-execution core

A shallow embedding, in Lean 4, of the effect-execution engine of the
`almadar` python shell (`src/orbital_app/core/`): binding resolution
(`bindings.py`), the in-memory storage provider (`repository.py`), the effect
dispatcher (`effect_executor.py`), the event bus (`event_bus.py`), and the
connection registry broadcast path (`websocket.py`).

Modelling conventions:

* Python data values flowing through this core are JSON-shaped (`None`, `bool`,
  `int`, `str`, `list`, `dict` with string keys); they are embedded as the
  inductive type `Val`.  Python's float values never occur in the code paths
  modelled here and are omitted.
* Fallible Python code is embedded as `Except PyErr _`: an exception raised by
  a modelled operation becomes `Except.error`.  Functions that the Python code
  cannot make raise are embedded as total functions.
* Attribute access `getattr(x, name, default)` on JSON-shaped data values is
  modelled as returning the default (such values carry no user data
  attributes; data field names are assumed not to collide with builtin
  attribute names).  Attribute assignment `setattr(x, name, v)` on such
  values raises `AttributeError`.
* Mutation of dictionaries is modelled by functional update; contexts are
  modelled as trees (no aliasing between distinct roots), which is how every
  call site in the repository builds them.
* `uuid.uuid4()` is modelled as a counter-indexed fresh-identifier supply
  threaded through the state (the only property the code relies on is that the
  provider generates some identifier).
-/

set_option maxHeartbeats 1000000

namespace Orbital

/-- JSON-shaped Python value universe used throughout the core.  Dictionary
keys in the data flowing through this code are strings (JSON objects). -/
inductive Val where
  | none : Val
  | bool : Bool → Val
  | int : Int → Val
  | str : String → Val
  | list : List Val → Val
  | dict : List (String × Val) → Val
deriving Repr

/-- Python exceptions that the modelled code can raise. -/
inductive PyErr where
  | indexError : PyErr
  | typeError : PyErr
  | attributeError : PyErr
  | keyError : PyErr
deriving DecidableEq, Repr

/-! ## String-keyed dictionaries (JSON objects, `Dict[str, Any]`) -/

/-- `d.get(k)` on a string-keyed Python dict: first (only) entry with key `k`. -/
def dictGet (m : List (String × Val)) (k : String) : Option Val :=
  match m with
  | [] => Option.none
  | (k2, v) :: rest => if k2 = k then some v else dictGet rest k

mutual
/-- Python `==` on the embedded value universe: `None` equals only `None`,
`bool` and `int` compare across kinds (`True == 1`), lists compare pointwise,
dicts compare the way CPython compares mappings: equal length and every entry
of the first present in the second with a `==`-equal value (with unique keys,
this is order-insensitive mapping equality). -/
def pyEq : Val → Val → Bool
  | Val.none, Val.none => true
  | Val.bool x, Val.bool y => x == y
  | Val.bool x, Val.int n => (if x then (1 : Int) else 0) == n
  | Val.int n, Val.bool y => n == (if y then (1 : Int) else 0)
  | Val.int x, Val.int y => x == y
  | Val.str x, Val.str y => x == y
  | Val.list xs, Val.list ys => pyEqL xs ys
  | Val.dict m1, Val.dict m2 => (List.length m1 == List.length m2) && pyEqD m1 m2
  | _, _ => false

/-- Pointwise Python `==` on lists. -/
def pyEqL : List Val → List Val → Bool
  | [], [] => true
  | x :: xs, y :: ys => pyEq x y && pyEqL xs ys
  | _, _ => false

/-- Every entry of the first mapping is present in the second with a
`==`-equal value. -/
def pyEqD : List (String × Val) → List (String × Val) → Bool
  | [], _ => true
  | (k, v) :: rest, m2 =>
    (match dictGet m2 k with
     | some w => pyEq v w
     | Option.none => false) && pyEqD rest m2
end

/-- Python truthiness on the embedded value universe. -/
def pyTruthy : Val → Bool
  | Val.none => false
  | Val.bool b => b
  | Val.int n => n != 0
  | Val.str s => s != ""
  | Val.list xs => !xs.isEmpty
  | Val.dict m => !m.isEmpty

/-- Whether a value may be used as a Python dict key (lists and dicts are
unhashable; using one as a key raises `TypeError`). -/
def hashable : Val → Bool
  | Val.list _ => false
  | Val.dict _ => false
  | _ => true

/-- `d.get(k)` with Python's `None` default. -/
def dictGetD (m : List (String × Val)) (k : String) : Val :=
  (dictGet m k).getD Val.none

/-- `d[k] = v` on a string-keyed Python dict: update in place if the key is
present (keeping its position), append otherwise. -/
def dictSet (m : List (String × Val)) (k : String) (v : Val) :
    List (String × Val) :=
  match m with
  | [] => [(k, v)]
  | (k2, w) :: rest => if k2 = k then (k2, v) :: rest else (k2, w) :: dictSet rest k v

/-- `d.update(other)` on string-keyed Python dicts: assign every entry of
`other`, in order, into `d`. -/
def dictMerge (m other : List (String × Val)) : List (String × Val) :=
  other.foldl (fun acc kv => dictSet acc kv.1 kv.2) m

/-! ## Python string primitives

Embedded at the character-list level (`String.toList`) so that every
operation computes by kernel reduction. -/

/-- Python `s.startswith(pre)`. -/
def pyStartsWith (s pre : String) : Bool :=
  pre.toList.isPrefixOf s.toList

/-- Python `s[1:]`: drop the first character. -/
def pyDrop1 (s : String) : String :=
  String.mk (s.toList.drop 1)

/-- Python `s.split(sep)` for a single-character separator: `""` splits to
`[""]`, a separator at either end produces an empty field. -/
def splitOnDot : List Char → List (List Char)
  | [] => [[]]
  | x :: xs =>
    match splitOnDot xs with
    | [] => [[]]
    | g :: gs => if x = '.' then [] :: g :: gs else (x :: g) :: gs

/-- Python `s.split(".")`. -/
def pySplitDot (s : String) : List String :=
  (splitOnDot s.toList).map (fun cs => String.mk cs)

/-- Python `s.replace("@entity.", "")`: remove every non-overlapping
occurrence of the 8-character pattern, scanning left to right (the pattern is
spelled out character by character so the recursion is structural). -/
def stripEntityAll : List Char → List Char
  | [] => []
  | '@' :: 'e' :: 'n' :: 't' :: 'i' :: 't' :: 'y' :: '.' :: rest =>
    stripEntityAll rest
  | x :: xs => x :: stripEntityAll xs

/-- Python `fp.replace("@entity.", "")` on strings. -/
def pyStripEntityAll (s : String) : String :=
  String.mk (stripEntityAll s.toList)

/-! ## Binding resolver (`bindings.py`, `resolve_binding`) -/

/-- The segment walk of `resolve_binding`: `if result is None: return None`,
then dict lookup via `result.get(part)` (missing key gives `None`), else
`getattr(result, part, None)` which on JSON-shaped data values yields the
default `None`. -/
def walkSegments : Val → List String → Val
  | r, [] => r
  | Val.none, _ :: _ => Val.none
  | Val.dict m, p :: ps => walkSegments (dictGetD m p) ps
  | _, _ :: ps => walkSegments Val.none ps

/-- `resolve_binding(value, context)`: non-strings and strings without the `@`
sigil are returned unchanged; otherwise split `@root.path` on `.`, return
`None` when the root is absent from the context, and walk the remaining
segments.  The Python function contains no raising operation (dict `get`,
`getattr` with a default, string `split`), so it is embedded as total. -/
def resolve_binding (value : Val) (context : List (String × Val)) : Val :=
  match value with
  | Val.str s =>
    if pyStartsWith s "@" then
      let parts := pySplitDot (pyDrop1 s)
      let root := parts.headD ""
      match dictGet context root with
      | Option.none => Val.none
      | some r => walkSegments r (parts.tail)
    else value
  | v => v

/-! ## Val-keyed dictionaries

The repository store `_store: Dict[str, Dict[str, Any]]` is keyed by whatever
values the dispatcher passes through (the annotations say `str`, but nothing
enforces them), so it is modelled with `Val` keys, `pyEq` key comparison, and
an explicit hashability check (a Python dict operation on an unhashable key
raises `TypeError`). -/

/-- Lookup in a Val-keyed association list with Python `==` key comparison.
Callers perform the hashability check that Python's dict operations do. -/
def pyAssocGet {α : Type} (m : List (Val × α)) (k : Val) : Option α :=
  match m with
  | [] => Option.none
  | (k2, v) :: rest => if pyEq k2 k then some v else pyAssocGet rest k

/-- `d[k] = v` on a Val-keyed dict: in-place update or append. -/
def pyAssocSet {α : Type} (m : List (Val × α)) (k : Val) (v : α) :
    List (Val × α) :=
  match m with
  | [] => [(k, v)]
  | (k2, w) :: rest =>
    if pyEq k2 k then (k2, v) :: rest else (k2, w) :: pyAssocSet rest k v

/-- `del d[k]` on a Val-keyed dict: drop the (single) entry with key `k`. -/
def pyAssocDel {α : Type} (m : List (Val × α)) (k : Val) : List (Val × α) :=
  match m with
  | [] => []
  | (k2, v) :: rest => if pyEq k2 k then rest else (k2, v) :: pyAssocDel rest k

/-- `k in d` on a Val-keyed dict. -/
def pyAssocContains {α : Type} (m : List (Val × α)) (k : Val) : Bool :=
  (pyAssocGet m k).isSome

/-! ## In-memory storage provider (`repository.py`, `InMemoryRepository`) -/

/-- An entity is a string-keyed field map (`Dict[str, Any]`). -/
def Entity := List (String × Val)

/-- `InMemoryRepository._store`: entity type → entity id → entity. -/
def Store := List (Val × List (Val × Entity))

/-- `get(entity_type, entity_id)`:
`self._store.get(entity_type, {}).get(entity_id)`.  Each dict `get` hashes its
key first. -/
def repoGet (store : Store) (ty eid : Val) : Except PyErr (Option Entity) :=
  if !hashable ty then Except.error PyErr.typeError
  else
    let bucket := (pyAssocGet store ty).getD []
    if !hashable eid then Except.error PyErr.typeError
    else Except.ok (pyAssocGet bucket eid)

/-- `_apply_filter(entities, filter_expr, context)`: a falsy or non-list
expression returns the entities unchanged; a list is read positionally
(`filter_expr[0]`, `[1]`, `[2]` — an `IndexError` if too short once the
operator matched); only the operator `"="` with a field path string starting
`"@entity."` filters (the python `str.replace` strips every occurrence of the
prefix), every other shape falls through unchanged. -/
def applyFilter (entities : List Entity) (filterExpr : Val) :
    Except PyErr (List Entity) :=
  if !pyTruthy filterExpr then Except.ok entities
  else
    match filterExpr with
    | Val.list fe =>
      match fe with
      | [] => Except.ok entities
      | op :: rest =>
        if pyEq op (Val.str "=") then
          match rest with
          | fieldPath :: expected :: _ =>
            match fieldPath with
            | Val.str fp =>
              if pyStartsWith fp "@entity." then
                let fieldName := pyStripEntityAll fp
                Except.ok (entities.filter
                  (fun e => pyEq (dictGetD e fieldName) expected))
              else Except.ok entities
            | _ => Except.ok entities
          | _ => Except.error PyErr.indexError
        else Except.ok entities
    | _ => Except.ok entities

/-- `list(entity_type, filter_expr, context)`: collect the values of the
type's bucket, then apply the filter only when both the filter expression and
the context are truthy. -/
def repoList (store : Store) (ty : Val) (filterExpr : Val)
    (context : List (String × Val)) : Except PyErr (List Entity) :=
  if !hashable ty then Except.error PyErr.typeError
  else
    let entities := ((pyAssocGet store ty).getD []).map Prod.snd
    if pyTruthy filterExpr && !context.isEmpty then
      applyFilter entities filterExpr
    else Except.ok entities

/-- `create(entity_type, data)`:
`entity_id = data.get("id") or str(uuid.uuid4())` (an `AttributeError` if
`data` is not a dict), then `data = {**data, "id": entity_id}` and store it.
The fresh uuid is modelled by the counter `n`. -/
def repoCreate (store : Store) (n : Nat) (ty : Val) (data : Val) :
    Except PyErr (Store × Nat × Entity) :=
  match data with
  | Val.dict m =>
    let provided := dictGetD m "id"
    let (eid, n') :=
      if pyTruthy provided then (provided, n)
      else (Val.str ("uuid-" ++ toString n), n + 1)
    let ent := dictSet m "id" eid
    if !hashable ty then Except.error PyErr.typeError
    else
      let bucket := (pyAssocGet store ty).getD []
      if !hashable eid then Except.error PyErr.typeError
      else Except.ok (pyAssocSet store ty (pyAssocSet bucket eid ent), n', ent)
  | _ => Except.error PyErr.attributeError

/-- `update(entity_type, entity_id, data)`: upsert.  If the id is present,
`stored.update(data)`; otherwise store `{**data, "id": entity_id}`.  Returns
the stored entity.  A non-dict `data` raises when merged or splatted. -/
def repoUpdate (store : Store) (ty eid : Val) (data : Val) :
    Except PyErr (Store × Entity) :=
  if !hashable ty then Except.error PyErr.typeError
  else
    let bucket := (pyAssocGet store ty).getD []
    if !hashable eid then Except.error PyErr.typeError
    else
      match data with
      | Val.dict dm =>
        match pyAssocGet bucket eid with
        | some existing =>
          let ent := dictMerge existing dm
          Except.ok (pyAssocSet store ty (pyAssocSet bucket eid ent), ent)
        | Option.none =>
          let ent := dictSet dm "id" eid
          Except.ok (pyAssocSet store ty (pyAssocSet bucket eid ent), ent)
      | _ => Except.error PyErr.typeError

/-- `delete(entity_type, entity_id)`:
`if entity_type in self._store and entity_id in self._store[entity_type]`
(note the short-circuit: the id is only hashed when the type bucket exists),
delete and return `True`, else return `False`. -/
def repoDelete (store : Store) (ty eid : Val) :
    Except PyErr (Bool × Store) :=
  if !hashable ty then Except.error PyErr.typeError
  else
    match pyAssocGet store ty with
    | Option.none => Except.ok (false, store)
    | some bucket =>
      if !hashable eid then Except.error PyErr.typeError
      else
        if pyAssocContains bucket eid then
          Except.ok (true, pyAssocSet store ty (pyAssocDel bucket eid))
        else Except.ok (false, store)

/-! ## Python container primitives used by the dispatcher -/

/-- `x is None` (identity test against the `None` singleton). -/
def isNone : Val → Bool
  | Val.none => true
  | _ => false

/-- Contiguous-sublist test (Boolean): `sub` occurs somewhere in `l`. -/
def isSubListOf (sub : List Char) : List Char → Bool
  | [] => sub.isEmpty
  | x :: xs => sub.isPrefixOf (x :: xs) || isSubListOf sub xs

/-- Substring occurrence, for Python `sub in s` on strings. -/
def pyStrContains (s sub : String) : Bool :=
  isSubListOf sub.toList s.toList

/-- Python `x in container`: key test on dicts (hashing `x` first), `==` scan
on lists, substring test on strings; `in` on a non-container raises
`TypeError`. -/
def pyContains (container x : Val) : Except PyErr Bool :=
  match container with
  | Val.dict m =>
    if !hashable x then Except.error PyErr.typeError
    else Except.ok (m.any (fun kv => pyEq (Val.str kv.1) x))
  | Val.list xs => Except.ok (xs.any (fun y => pyEq y x))
  | Val.str s =>
    match x with
    | Val.str sub => Except.ok (pyStrContains s sub)
    | _ => Except.error PyErr.typeError
  | _ => Except.error PyErr.typeError

/-- Python `container[idx]`: dict lookup (`KeyError` when absent), list/str
indexing with negative-index wrap (`IndexError` out of range, `TypeError` on a
non-integer index), `TypeError` otherwise. -/
def pySubscript (container idx : Val) : Except PyErr Val :=
  match container with
  | Val.dict m =>
    if !hashable idx then Except.error PyErr.typeError
    else
      match m.find? (fun kv => pyEq (Val.str kv.1) idx) with
      | some kv => Except.ok kv.2
      | Option.none => Except.error PyErr.keyError
  | Val.list xs =>
    match idx with
    | Val.int i =>
      let j := if i < 0 then i + xs.length else i
      if h : 0 ≤ j ∧ j.toNat < xs.length then Except.ok (xs.get ⟨j.toNat, h.2⟩)
      else Except.error PyErr.indexError
    | _ => Except.error PyErr.typeError
  | Val.str s =>
    match idx with
    | Val.int i =>
      let cs := s.toList
      let j := if i < 0 then i + cs.length else i
      if h : 0 ≤ j ∧ j.toNat < cs.length then
        Except.ok (Val.str (String.mk [cs.get ⟨j.toNat, h.2⟩]))
      else Except.error PyErr.indexError
    | _ => Except.error PyErr.typeError
  | _ => Except.error PyErr.typeError

/-- `effect[i]` on the effect's positional-argument list: `IndexError` when
the effect is shorter. -/
def pyIndex (effect : List Val) (i : Nat) : Except PyErr Val :=
  match effect[i]? with
  | some v => Except.ok v
  | Option.none => Except.error PyErr.indexError

/-! ## Effect executor (`effect_executor.py`, `EffectExecutor`) -/

/-- The per-request dispatcher state (`EffectExecutor`'s `repository._store`,
`data`, `client_effects`, `effect_results`), plus the fresh-uuid counter. -/
structure ExecState where
  store : Store
  nextId : Nat
  data : List (Val × Val)
  clientEffects : List (List Val)
  effectResults : List (List (String × Val))

/-- Modelled from the spec: the tensor/neural-network subsystem is out of
scope and "treated as an opaque compute service" (spec §1); whether the
wrapped framework is importable is an environment fact (`_execute_pytorch`
catches `ImportError` and degrades to `None`).  Both are parameters of the
embedding. -/
structure PyEnv where
  torchAvailable : Bool
  nnForward : Val → Val → Except PyErr Val
  trainLoop : Val → Val → Val → Except PyErr Val

/-- `_execute_fetch`: read `effect[1]` (entity type) and the optional
`effect[2]` options; `"id" in options` selects a single-entity `get` (the id
resolved through the binding resolver), otherwise a collection `list` with
`options.get("filter")`; store the outcome in `data[entity_type]` and return
`self.data.get(entity_type)`. -/
def executeFetch (effect : List Val) (ctx : List (String × Val))
    (st : ExecState) : Except PyErr (ExecState × Val) := do
  let entityType ← pyIndex effect 1
  let options := if effect.length > 2 then effect.getD 2 Val.none else Val.dict []
  let hasId ← pyContains options (Val.str "id")
  if hasId then
    let idExpr ← pySubscript options (Val.str "id")
    let entityId := resolve_binding idExpr ctx
    let fetched ← repoGet st.store entityType entityId
    let result := match fetched with
      | some e => Val.dict e
      | Option.none => Val.none
    let st2 := { st with data := pyAssocSet st.data entityType result }
    Except.ok (st2, (pyAssocGet st2.data entityType).getD Val.none)
  else
    match options with
    | Val.dict om =>
      let filterExpr := dictGetD om "filter"
      let results ← repoList st.store entityType filterExpr ctx
      let resultV := Val.list (results.map Val.dict)
      let st2 := { st with data := pyAssocSet st.data entityType resultV }
      Except.ok (st2, (pyAssocGet st2.data entityType).getD Val.none)
    | _ => Except.error PyErr.attributeError

/-- `_execute_persist`: read `effect[1]` (action), `effect[2]` (entity type),
resolve `effect[3]` as data when present; dispatch on
`create`/`update`/`delete` (the delete branch ignores the boolean the
repository returns and reports `{"deleted": True, "id": entity_id}`); always
append one audit record with `success = (result is not None)`. -/
def executePersist (effect : List Val) (ctx : List (String × Val))
    (st : ExecState) : Except PyErr (ExecState × Val) := do
  let action ← pyIndex effect 1
  let entityType ← pyIndex effect 2
  let data := if effect.length > 3 then resolve_binding (effect.getD 3 Val.none) ctx
              else Val.dict []
  let step : Except PyErr (ExecState × Val) :=
    if pyEq action (Val.str "create") then do
      match data with
      | Val.dict _ =>
        let (store2, n2, ent) ← repoCreate st.store st.nextId entityType data
        Except.ok ({ st with store := store2, nextId := n2 }, Val.dict ent)
      | _ => Except.error PyErr.attributeError
    else if pyEq action (Val.str "update") then
      let fromCtx := dictGetD ctx "entityId"
      let entityId := if pyTruthy fromCtx then fromCtx
        else match data with
          | Val.dict dm => dictGetD dm "id"
          | _ => Val.none
      if pyTruthy entityId then do
        let (store2, ent) ← repoUpdate st.store entityType entityId data
        Except.ok ({ st with store := store2 }, Val.dict ent)
      else Except.ok (st, Val.none)
    else if pyEq action (Val.str "delete") then
      let entityId := dictGetD ctx "entityId"
      if pyTruthy entityId then do
        let (_, store2) ← repoDelete st.store entityType entityId
        Except.ok ({ st with store := store2 },
          Val.dict [("deleted", Val.bool true), ("id", entityId)])
      else Except.ok (st, Val.none)
    else Except.ok (st, Val.none)
  let (st2, result) ← step
  let audit : List (String × Val) :=
    [("effect", Val.str "persist"), ("action", action),
     ("entityType", entityType), ("data", result),
     ("success", Val.bool (!isNone result))]
  Except.ok ({ st2 with effectResults := st2.effectResults ++ [audit] }, result)

/-- `_execute_call_service`: placeholder returning a `not_implemented` record
and auditing `success=False`. -/
def executeCallService (effect : List Val) (ctx : List (String × Val))
    (st : ExecState) : Except PyErr (ExecState × Val) := do
  let service ← pyIndex effect 1
  let method ← pyIndex effect 2
  let _args := if effect.length > 3 then resolve_binding (effect.getD 3 Val.none) ctx
               else Val.dict []
  let result := Val.dict
    [("service", service), ("method", method), ("status", Val.str "not_implemented")]
  let audit : List (String × Val) :=
    [("effect", Val.str "call_service"), ("service", service),
     ("method", method), ("data", result), ("success", Val.bool false)]
  Except.ok ({ st with effectResults := st.effectResults ++ [audit] }, result)

/-- The navigation-and-assign part of `_execute_set`, on `parts[1:]` of the
target (at least one segment).  `some newRoot` means the walk stayed on live
dictionaries so the final assignment mutated the context (the updated root
value is returned); `none` means a hop was missing or a non-dict was crossed,
so `obj.get(part, {})`/`getattr(obj, part, {})` detached the walk onto a fresh
empty dict and the assignment landed there, invisibly; `AttributeError` means
the live walk ended on a non-dict value, where `setattr` raises. -/
def setNav : Val → List String → Val → Except PyErr (Option Val)
  | Val.dict m, [last], value =>
    Except.ok (some (Val.dict (dictSet m last value)))
  | _, [_], _ => Except.error PyErr.attributeError
  | Val.dict m, p :: q :: rest, value =>
    (match dictGet m p with
     | some v => (setNav v (q :: rest) value).map
         (Option.map (fun v2 => Val.dict (dictSet m p v2)))
     | Option.none => Except.ok Option.none)
  | _, _ :: _ :: _, _ => Except.ok Option.none
  | _, [], _ => Except.ok Option.none

/-- The target-parsing-and-mutation phase of `_execute_set`: the context is
only touched when the target is an `@`-string with at least two segments
whose root is present; the walk may raise through `setNav`. -/
def setCtx (target value : Val) (ctx : List (String × Val)) :
    Except PyErr (List (String × Val)) :=
  match target with
  | Val.str s =>
    if pyStartsWith s "@" then
      let parts := pySplitDot (pyDrop1 s)
      let root := parts.headD ""
      match dictGet ctx root with
      | some rootVal =>
        if 1 < parts.length then
          match setNav rootVal parts.tail value with
          | Except.error e => Except.error e
          | Except.ok (some newRoot) => Except.ok (dictSet ctx root newRoot)
          | Except.ok Option.none => Except.ok ctx
        else Except.ok ctx
      | Option.none => Except.ok ctx
    else Except.ok ctx
  | _ => Except.ok ctx

/-- The body of `_execute_set` after the positional reads: run the mutation
phase, then append one audit record with `success=True` and return the
value. -/
def executeSetCore (target value : Val) (ctx : List (String × Val))
    (st : ExecState) :
    Except PyErr (ExecState × List (String × Val) × Val) :=
  match setCtx target value ctx with
  | Except.error e => Except.error e
  | Except.ok ctx2 =>
    let audit : List (String × Val) :=
      [("effect", Val.str "set"), ("target", target), ("value", value),
       ("success", Val.bool true)]
    Except.ok ({ st with effectResults := st.effectResults ++ [audit] },
      ctx2, value)

/-- `_execute_set`: read `effect[1]` (target) and resolve `effect[2]`
(defaulting to `None`), then run the core. -/
def executeSet (effect : List Val) (ctx : List (String × Val))
    (st : ExecState) :
    Except PyErr (ExecState × List (String × Val) × Val) := do
  let target ← pyIndex effect 1
  let value := if effect.length > 2 then resolve_binding (effect.getD 2 Val.none) ctx
               else Val.none
  executeSetCore target value ctx st

/-- `_execute_pytorch`: when the wrapped framework is unavailable the imports
raise `ImportError`, which is caught and degrades to `None`; otherwise
`nn/forward` and `train/loop` read their positional arguments (raising
`IndexError` on a short effect — only `ImportError` is caught) and call the
opaque compute service; other `nn/`/`train/` ops fall through to `None`. -/
def executePytorch (env : PyEnv) (effect : List Val)
    (ctx : List (String × Val)) : Except PyErr Val :=
  if !env.torchAvailable then Except.ok Val.none
  else
    let op := effect.headD Val.none
    if pyEq op (Val.str "nn/forward") then do
      let m ← pyIndex effect 1
      let i ← pyIndex effect 2
      env.nnForward (resolve_binding m ctx) (resolve_binding i ctx)
    else if pyEq op (Val.str "train/loop") then do
      let m ← pyIndex effect 1
      let d ← pyIndex effect 2
      let c ← pyIndex effect 3
      env.trainLoop (resolve_binding m ctx) (resolve_binding d ctx)
        (resolve_binding c ctx)
    else Except.ok Val.none

/-- `EffectExecutor.execute`: the tag dispatcher.  An empty effect returns
`None`; the tag is compared against the server-side tags, then the
client-effect tuple, then the `nn/`, `train/`, `tensor/` prefixes (the
`startswith` calls raise `AttributeError` on a non-string tag); anything else
falls through to `return None`. -/
def execute (env : PyEnv) (effect : List Val) (ctx : List (String × Val))
    (st : ExecState) :
    Except PyErr (ExecState × List (String × Val) × Val) :=
  match effect with
  | [] => Except.ok (st, ctx, Val.none)
  | t :: _ =>
    if pyEq t (Val.str "fetch") then
      (executeFetch effect ctx st).map (fun p => (p.1, ctx, p.2))
    else if pyEq t (Val.str "persist") then
      (executePersist effect ctx st).map (fun p => (p.1, ctx, p.2))
    else if pyEq t (Val.str "call_service") then
      (executeCallService effect ctx st).map (fun p => (p.1, ctx, p.2))
    else if pyEq t (Val.str "set") then
      executeSet effect ctx st
    else if pyEq t (Val.str "render_ui") || pyEq t (Val.str "render-ui") then
      Except.ok ({ st with clientEffects := st.clientEffects ++ [effect] }, ctx, Val.none)
    else if pyEq t (Val.str "navigate") then
      Except.ok ({ st with clientEffects := st.clientEffects ++ [effect] }, ctx, Val.none)
    else if pyEq t (Val.str "notify") then
      Except.ok ({ st with clientEffects := st.clientEffects ++ [effect] }, ctx, Val.none)
    else if pyEq t (Val.str "emit") then
      Except.ok ({ st with clientEffects := st.clientEffects ++ [effect] }, ctx, Val.none)
    else
      match t with
      | Val.str s =>
        if pyStartsWith s "nn/" || pyStartsWith s "train/" then
          (executePytorch env effect ctx).map (fun v => (st, ctx, v))
        else if pyStartsWith s "tensor/" then Except.ok (st, ctx, Val.none)
        else Except.ok (st, ctx, Val.none)
      | _ => Except.error PyErr.attributeError

/-! ## Event bus (`event_bus.py`, `EventBus`) -/

/-- `EventSubscription` dataclass.  `handler` stands for the identity of the
subscribed callable (dataclass equality compares the stored callable by object
identity, so two subscriptions are equal exactly when event, callable and
`once` flag coincide). -/
structure EventSubscription where
  event : String
  handler : Nat
  once : Bool
deriving DecidableEq, Repr

/-- `EventBus._subscriptions`: event name → subscription list. -/
def EventBusState := List (String × List EventSubscription)

/-- Lookup in a string-keyed association list (a Python dict). -/
def strGet {α : Type} (m : List (String × α)) (k : String) : Option α :=
  match m with
  | [] => Option.none
  | (k2, v) :: rest => if k2 = k then some v else strGet rest k

/-- In-place update / append on a string-keyed association list. -/
def strSet {α : Type} (m : List (String × α)) (k : String) (v : α) :
    List (String × α) :=
  match m with
  | [] => [(k, v)]
  | (k2, w) :: rest => if k2 = k then (k2, v) :: rest else (k2, w) :: strSet rest k v

/-- The `for sub in self._subscriptions[event]` loop of `emit`.  Each handler
is called inside `try … except Exception`, so every subscription is invoked in
order whether or not earlier handlers raised; `raises h` says whether the
handler with identity `h` raises when invoked.  A subscription reaches the
`if sub.once: to_remove.append(sub)` line only when its handler returned
normally (the statement sits after the call, inside the `try`).  Returns the
`to_remove` list and the invocation trace (handler, argument). -/
def emitLoop (raises : Nat → Bool) (arg : Val) :
    List EventSubscription → List EventSubscription × List (Nat × Val)
  | [] => ([], [])
  | s :: rest =>
    let (rem, calls) := emitLoop raises arg rest
    (if s.once && !raises s.handler then s :: rem else rem,
     (s.handler, arg) :: calls)

/-- `EventBus.emit(event, payload)`: no-op when the event has no entry;
otherwise run every subscribed handler in subscription order with
`payload or {}`, then remove each collected one-shot subscription with
`list.remove` (first equal occurrence).  Handler exceptions are caught at the
bus boundary, so the function is total.  Returns the new subscription table
and the invocation trace. -/
def emit (raises : Nat → Bool) (bus : EventBusState) (event : String)
    (payload : Val) : EventBusState × List (Nat × Val) :=
  match strGet bus event with
  | Option.none => (bus, [])
  | some subs =>
    let arg := if pyTruthy payload then payload else Val.dict []
    let (toRemove, calls) := emitLoop raises arg subs
    (strSet bus event (toRemove.foldl (fun l s => l.erase s) subs), calls)

/-! ## Connection registry (`websocket.py`, `ConnectionManager`) -/

/-- Registry state: `active_connections : entity_type → entity_id → [conn]`
plus the flat global list.  Connections are identified by opaque ids
(membership and removal on `List[WebSocket]` compare by object identity). -/
structure ConnState where
  active : List (String × List (String × List Nat))
  global : List Nat

/-- The entity-scoped connection list read by `broadcast_to_entity`
(`[]` when either the type or the id level is missing). -/
def scopedConns (m : ConnState) (ty eid : String) : List Nat :=
  match strGet m.active ty with
  | Option.none => []
  | some inner => (strGet inner eid).getD []

/-- The snapshot taken under the lock in `broadcast_to_entity`: start from an
empty list, extend with the scoped list when both levels are present, then
extend with every global connection. -/
def broadcastRecipients (m : ConnState) (ty eid : String) : List Nat :=
  let base : List Nat := []
  let base := match strGet m.active ty with
    | some inner =>
      match strGet inner eid with
      | some conns => base ++ conns
      | Option.none => base
    | Option.none => base
  base ++ m.global

/-- The send loop of `_send_to_connections`: every connection in the snapshot
is attempted in order (failures are caught per connection), returning the
attempt trace and the failed connections. -/
def sendAll (fails : Nat → Bool) : List Nat → List Nat × List Nat
  | [] => ([], [])
  | c :: rest =>
    let (att, dis) := sendAll fails rest
    (c :: att, if fails c then c :: dis else dis)

/-- The post-send cleanup: a failed connection is removed (first occurrence)
from the global list and from every scoped list. -/
def removeEverywhere (m : ConnState) (ws : Nat) : ConnState :=
  { active := m.active.map (fun tkv =>
      (tkv.1, tkv.2.map (fun ikv => (ikv.1, ikv.2.erase ws)))),
    global := m.global.erase ws }

/-- `broadcast_to_entity(entity_type, entity_id, message)`: snapshot the
scoped-plus-global union under the lock, send to the snapshot outside the
lock, then evict the connections whose send failed.  The serialized message is
the same for every recipient, so the trace records the connections attempted,
in order. -/
def broadcastToEntity (fails : Nat → Bool) (m : ConnState) (ty eid : String) :
    ConnState × List Nat :=
  let conns := broadcastRecipients m ty eid
  let (attempts, dis) := sendAll fails conns
  (dis.foldl removeEverywhere m, attempts)

/-! ## Supporting lemmas -/

theorem walkSegments_none (ps : List String) :
    walkSegments Val.none ps = Val.none := by
  cases ps <;> rfl

theorem walkSegments_append (ps qs : List String) (v : Val) :
    walkSegments v (ps ++ qs) = walkSegments (walkSegments v ps) qs := by
  induction ps generalizing v with
  | nil => cases v <;> rfl
  | cons p ps ih =>
    cases v with
    | none => simp [walkSegments, walkSegments_none]
    | dict m => simp [walkSegments, ih]
    | bool b => simp [walkSegments, ih]
    | int n => simp [walkSegments, ih]
    | str s => simp [walkSegments, ih]
    | list xs => simp [walkSegments, ih]

/-! ## C2 — binding resolution -/

/-- C2: for a binding string `@root.seg1...segN` and a context map, if the
root (the first `.`-segment after the sigil) is absent from the context the
result is `null`; otherwise the resolver walks the remaining segments, a walk
in which a non-map value yields `null` for the next step (attribute lookup
defaults to `null`), a `null` absorbs every later segment, and once any prefix
of the walk yields `null` the remaining segments are skipped and the final
result is `null`.  The embedding of `resolve_binding` is a total function:
no operation in it raises. -/
theorem resolve_binding_null_walk (s : String) (ctx : List (String × Val))
    (hs : pyStartsWith s "@" = true) :
    (dictGet ctx ((pySplitDot (pyDrop1 s)).headD "") = Option.none →
      resolve_binding (Val.str s) ctx = Val.none)
    ∧ (∀ r, dictGet ctx ((pySplitDot (pyDrop1 s)).headD "") = some r →
        resolve_binding (Val.str s) ctx =
          walkSegments r ((pySplitDot (pyDrop1 s)).tail))
    ∧ (∀ (v : Val) (p : String) (ps : List String),
        (∀ m, v ≠ Val.dict m) → v ≠ Val.none →
        walkSegments v (p :: ps) = Val.none)
    ∧ (∀ (v : Val) (ps qs : List String), walkSegments v ps = Val.none →
        walkSegments v (ps ++ qs) = Val.none) := by
  refine ⟨fun habs => ?_, fun r hr => ?_, fun v p ps hnd hnn => ?_, fun v ps qs h => ?_⟩
  · simp only [resolve_binding, hs, if_true, List.headD] at *
    rw [habs]
  · simp only [resolve_binding, hs, if_true, List.headD] at *
    rw [hr]
  · cases v with
    | none => exact absurd rfl hnn
    | dict m => exact absurd rfl (hnd m)
    | bool b => simp [walkSegments, walkSegments_none]
    | int n => simp [walkSegments, walkSegments_none]
    | str t => simp [walkSegments, walkSegments_none]
    | list xs => simp [walkSegments, walkSegments_none]
  · rw [walkSegments_append, h, walkSegments_none]

/-- C2 witness: the spec's own example, `resolve("@root.missing.path",
{root: {}})` is `null`. -/
theorem resolve_binding_null_walk_witness :
    resolve_binding (Val.str "@root.missing.path") [("root", Val.dict [])] =
      Val.none := by
  have h := (resolve_binding_null_walk "@root.missing.path"
    [("root", Val.dict [])] (by decide)).2.1 (Val.dict []) (by rfl)
  rw [h]
  rfl

/-! ## Dictionary lemmas -/

theorem dictGet_dictSet_self (m : List (String × Val)) (k : String) (v : Val) :
    dictGet (dictSet m k v) k = some v := by
  induction m with
  | nil => simp [dictSet, dictGet]
  | cons kv rest ih =>
    by_cases h : kv.1 = k <;> simp [dictSet, dictGet, h, ih]

theorem dictGet_dictSet_ne (m : List (String × Val)) (k k' : String) (v : Val)
    (h : k' ≠ k) : dictGet (dictSet m k v) k' = dictGet m k' := by
  have h' : k ≠ k' := Ne.symm h
  induction m with
  | nil => simp [dictSet, dictGet, h']
  | cons kv rest ih =>
    obtain ⟨k2, w⟩ := kv
    by_cases h2 : k2 = k
    · subst h2
      simp [dictSet, dictGet, h']
    · simp [dictSet, dictGet, h2, ih]

theorem pyAssocGet_pyAssocSet_of_isSome {α : Type} (m : List (Val × α))
    (k : Val) (v : α) (h : (pyAssocGet m k).isSome) :
    pyAssocGet (pyAssocSet m k v) k = some v := by
  induction m with
  | nil => simp [pyAssocGet] at h
  | cons kv rest ih =>
    by_cases h2 : pyEq kv.1 k
    · simp [pyAssocSet, pyAssocGet, h2]
    · simp [pyAssocGet, h2] at h
      simp [pyAssocSet, pyAssocGet, h2, ih h]

/-- A Python dict never holds two keys that compare `==`-equal: at most one
entry of the association list matches any key.  Every dict reachable through
the repository operations satisfies this (Python enforces it by hashing). -/
def pyKeysOnce {α : Type} (m : List (Val × α)) : Prop :=
  ∀ k : Val, List.countP (fun kv => pyEq kv.1 k) m ≤ 1

theorem pyAssocGet_eq_none_of_countP_zero {α : Type} (m : List (Val × α))
    (k : Val) (h : List.countP (fun kv => pyEq kv.1 k) m = 0) :
    pyAssocGet m k = Option.none := by
  induction m with
  | nil => rfl
  | cons kv rest ih =>
    rw [List.countP_cons] at h
    by_cases h2 : pyEq kv.1 k = true
    · rw [if_pos h2] at h
      omega
    · rw [if_neg h2, Nat.add_zero] at h
      simp [pyAssocGet, h2, ih h]

theorem pyAssocDel_contains_false {α : Type} (m : List (Val × α)) (k : Val)
    (hok : List.countP (fun kv => pyEq kv.1 k) m ≤ 1)
    (hc : pyAssocContains m k = true) :
    pyAssocContains (pyAssocDel m k) k = false := by
  induction m with
  | nil => simp [pyAssocContains, pyAssocGet] at hc
  | cons kv rest ih =>
    rw [List.countP_cons] at hok
    by_cases h2 : pyEq kv.1 k = true
    · rw [if_pos h2] at hok
      have h0 : List.countP (fun kv => pyEq kv.1 k) rest = 0 := by omega
      simp [pyAssocDel, h2, pyAssocContains,
        pyAssocGet_eq_none_of_countP_zero rest k h0]
    · rw [if_neg h2, Nat.add_zero] at hok
      simp [pyAssocContains, pyAssocGet, h2] at hc
      have := ih hok (by simpa [pyAssocContains] using hc)
      simpa [pyAssocDel, h2, pyAssocContains, pyAssocGet] using this

/-! ## C4 — upsert law -/

/-- C4: `update(type, id, data)` on an id that is not currently stored (with
hashable type and id keys — the store's keys are strings in this system) does
not fail: it creates and returns an entity whose `id` field is the requested
id and whose remaining fields are exactly those of `data`. -/
theorem repoUpdate_upsert (store : Store) (ty eid : Val)
    (dm : List (String × Val))
    (hty : hashable ty = true) (heid : hashable eid = true)
    (habs : pyAssocGet ((pyAssocGet store ty).getD []) eid = Option.none) :
    ∃ store2 ent, repoUpdate store ty eid (Val.dict dm) = Except.ok (store2, ent)
      ∧ dictGet ent "id" = some eid
      ∧ (∀ k, k ≠ "id" → dictGet ent k = dictGet dm k) := by
  refine ⟨pyAssocSet store ty
      (pyAssocSet ((pyAssocGet store ty).getD []) eid (dictSet dm "id" eid)),
    dictSet dm "id" eid, ?_, dictGet_dictSet_self dm "id" eid,
    fun k hk => dictGet_dictSet_ne dm "id" k eid hk⟩
  simp [repoUpdate, hty, heid, habs]

/-- C4 witness: updating a fresh id in an empty store. -/
theorem repoUpdate_upsert_witness :
    ∃ store2 ent,
      repoUpdate [] (Val.str "Task") (Val.str "non-existent")
          (Val.dict [("status", Val.str "done")]) = Except.ok (store2, ent)
      ∧ dictGet ent "id" = some (Val.str "non-existent")
      ∧ (∀ k, k ≠ "id" →
          dictGet ent k = dictGet [("status", Val.str "done")] k) :=
  repoUpdate_upsert [] (Val.str "Task") (Val.str "non-existent")
    [("status", Val.str "done")] (by decide) (by decide) (by rfl)

/-! ## C5 — delete law -/

/-- C5: deleting a stored id succeeds exactly once — the first `delete`
returns `True`, every subsequent `delete` of the same id (no re-creation in
between: the second call leaves the store unchanged, so all later calls
behave like the second) returns `False`; and `delete` of an id that is not
stored returns `False` with the store untouched, raising nothing.  The bucket
satisfies the Python-dict invariant `pyKeysOnce`. -/
theorem repoDelete_law (store : Store) (ty eid : Val)
    (hwf : pyKeysOnce ((pyAssocGet store ty).getD [])) :
    (∀ e, repoGet store ty eid = Except.ok (some e) →
      ∃ store1, repoDelete store ty eid = Except.ok (true, store1)
        ∧ repoDelete store1 ty eid = Except.ok (false, store1))
    ∧ (repoGet store ty eid = Except.ok Option.none →
        repoDelete store ty eid = Except.ok (false, store)) := by
  constructor
  · intro e hget
    by_cases hty : hashable ty
    · by_cases heid : hashable eid
      · simp [repoGet, hty, heid] at hget
        cases hb : pyAssocGet store ty with
        | none => rw [hb] at hget; simp [pyAssocGet] at hget
        | some bucket =>
          rw [hb] at hget hwf
          simp at hget hwf
          refine ⟨pyAssocSet store ty (pyAssocDel bucket eid), ?_, ?_⟩
          · simp [repoDelete, hty, hb, heid, pyAssocContains, hget]
          · have hget2 : pyAssocGet (pyAssocSet store ty (pyAssocDel bucket eid)) ty
                = some (pyAssocDel bucket eid) :=
              pyAssocGet_pyAssocSet_of_isSome store ty _ (by simp [hb])
            have hcf : pyAssocContains (pyAssocDel bucket eid) eid = false :=
              pyAssocDel_contains_false bucket eid (hwf eid)
                (by simp [pyAssocContains, hget])
            simp [repoDelete, hty, heid, hget2, hcf]
      · simp [repoGet, hty, heid] at hget
    · simp [repoGet, hty] at hget
  · intro hget
    by_cases hty : hashable ty
    · by_cases heid : hashable eid
      · simp [repoGet, hty, heid] at hget
        cases hb : pyAssocGet store ty with
        | none => simp [repoDelete, hty, hb]
        | some bucket =>
          rw [hb] at hget
          simp at hget
          simp [repoDelete, hty, hb, heid, pyAssocContains, hget]
      · simp [repoGet, hty, heid] at hget
    · simp [repoGet, hty] at hget

/-- C5 witness: a store holding one `Task`. -/
theorem repoDelete_law_witness :
    (∀ e, repoGet [(Val.str "Task", [(Val.str "1", [("id", Val.str "1")])])]
        (Val.str "Task") (Val.str "1") = Except.ok (some e) →
      ∃ store1,
        repoDelete [(Val.str "Task", [(Val.str "1", [("id", Val.str "1")])])]
            (Val.str "Task") (Val.str "1") = Except.ok (true, store1)
        ∧ repoDelete store1 (Val.str "Task") (Val.str "1") =
            Except.ok (false, store1))
    ∧ (repoGet [(Val.str "Task", [(Val.str "1", [("id", Val.str "1")])])]
          (Val.str "Task") (Val.str "1") = Except.ok Option.none →
        repoDelete [(Val.str "Task", [(Val.str "1", [("id", Val.str "1")])])]
            (Val.str "Task") (Val.str "1") =
          Except.ok (false,
            [(Val.str "Task", [(Val.str "1", [("id", Val.str "1")])])])) :=
  repoDelete_law [(Val.str "Task", [(Val.str "1", [("id", Val.str "1")])])]
    (Val.str "Task") (Val.str "1")
    (fun k => le_trans (List.countP_le_length _) (by decide))

/-! ## C3 — permissive filter grammar -/

theorem applyFilter_malformed (entities : List Entity) (fe : Val)
    (hm : (∀ l, fe ≠ Val.list l) ∨ fe = Val.list [] ∨
        (∃ op rest, fe = Val.list (op :: rest) ∧ pyEq op (Val.str "=") = false) ∨
        (∃ op fp ev rest, fe = Val.list (op :: fp :: ev :: rest) ∧
          (∀ s, fp = Val.str s → pyStartsWith s "@entity." = false))) :
    applyFilter entities fe = Except.ok entities := by
  rcases hm with h | h | ⟨op, rest, rfl, hop⟩ | ⟨op, fp, ev, rest, rfl, hfp⟩
  · cases fe with
    | list l => exact absurd rfl (h l)
    | none => rfl
    | bool b => unfold applyFilter; split <;> rfl
    | int n => unfold applyFilter; split <;> rfl
    | str s => unfold applyFilter; split <;> rfl
    | dict m => unfold applyFilter; split <;> rfl
  · subst h; rfl
  · simp [applyFilter, pyTruthy, hop]
  · by_cases hop : pyEq op (Val.str "=") = true
    · cases fp with
      | str s => simp [applyFilter, pyTruthy, hop, hfp s rfl]
      | none => simp [applyFilter, pyTruthy, hop]
      | bool b => simp [applyFilter, pyTruthy, hop]
      | int n => simp [applyFilter, pyTruthy, hop]
      | list l => simp [applyFilter, pyTruthy, hop]
      | dict m => simp [applyFilter, pyTruthy, hop]
    · simp [applyFilter, pyTruthy, hop]

/-- C3 counterexample: two concrete inputs on which the claim fails.  The
short list `["="]` with a non-empty context raises `IndexError`
(`filter_expr[1]` on a one-element list) instead of returning the full set;
and the malformed 4-element expression
`["=", "@entity.status", "pending", "extra"]` — not a well-formed 3-element
triple — is *not* ignored: `_apply_filter` reads only `filter_expr[0..2]`,
applies the equality filter, and returns a proper subset of the two stored
entities (third conjunct: the full unfiltered set has both). -/
theorem repoList_malformed_filter_refuted :
    repoList [(Val.str "T", [(Val.str "1", [("id", Val.str "1")])])]
      (Val.str "T") (Val.list [Val.str "="]) [("dummy", Val.bool true)] =
      Except.error PyErr.indexError
    ∧ repoList
        [(Val.str "T",
          [(Val.str "1", [("id", Val.str "1"), ("status", Val.str "pending")]),
           (Val.str "2", [("id", Val.str "2"), ("status", Val.str "done")])])]
        (Val.str "T")
        (Val.list [Val.str "=", Val.str "@entity.status", Val.str "pending",
          Val.str "extra"])
        [("dummy", Val.bool true)] =
        Except.ok [[("id", Val.str "1"), ("status", Val.str "pending")]]
    ∧ ((pyAssocGet
          [(Val.str "T",
            [(Val.str "1", [("id", Val.str "1"), ("status", Val.str "pending")]),
             (Val.str "2", [("id", Val.str "2"), ("status", Val.str "done")])])]
          (Val.str "T")).getD []).map Prod.snd =
        [[("id", Val.str "1"), ("status", Val.str "pending")],
         [("id", Val.str "2"), ("status", Val.str "done")]] :=
  ⟨rfl, rfl, rfl⟩

/-- C3 amended: the filter grammar of `list` as the code implements it, for
every filter expression (with the filter only consulted under a non-empty
context): (i) a non-list, the empty list, a list whose head is not `"="`, or
an `"="`-headed list of length ≥ 3 whose field path is not an
`"@entity."`-string is treated as "no filter" and the full unfiltered entity
set is returned; (ii) an `"="`-headed list of length ≥ 3 whose field path is
an `"@entity."`-string applies the equality filter to elements 1 and 2,
ignoring any extra elements — so a malformed longer expression filters like
the triple of its first three elements and may return a proper subset;
(iii) an `"="`-headed list of fewer than three elements raises
`IndexError`. -/
theorem repoList_filter_grammar (store : Store) (ty fe : Val)
    (ctx : List (String × Val)) (hty : hashable ty = true) :
    ((∀ l, fe ≠ Val.list l) ∨ fe = Val.list [] ∨
        (∃ op rest, fe = Val.list (op :: rest) ∧ pyEq op (Val.str "=") = false) ∨
        (∃ op fp ev rest, fe = Val.list (op :: fp :: ev :: rest) ∧
          (∀ s, fp = Val.str s → pyStartsWith s "@entity." = false)) →
      repoList store ty fe ctx =
        Except.ok (((pyAssocGet store ty).getD []).map Prod.snd))
    ∧ (∀ op s ev rest, fe = Val.list (op :: Val.str s :: ev :: rest) →
        pyEq op (Val.str "=") = true → pyStartsWith s "@entity." = true →
        ctx ≠ [] →
        repoList store ty fe ctx = Except.ok
          ((((pyAssocGet store ty).getD []).map Prod.snd).filter
            (fun e => pyEq (dictGetD e (pyStripEntityAll s)) ev)))
    ∧ (∀ op rest, fe = Val.list (op :: rest) → rest.length < 2 →
        pyEq op (Val.str "=") = true → ctx ≠ [] →
        repoList store ty fe ctx = Except.error PyErr.indexError) := by
  refine ⟨fun hm => ?_, fun op s ev rest hfe hop hsw hctx => ?_,
    fun op rest hfe hlen hop hctx => ?_⟩
  · unfold repoList
    rw [hty]
    by_cases hc : (pyTruthy fe && !ctx.isEmpty) = true
    · simp only [Bool.not_true, Bool.false_eq_true, if_false, hc, if_true]
      exact applyFilter_malformed _ fe hm
    · simp only [Bool.not_true, Bool.false_eq_true, if_false, hc]
  · subst hfe
    have hctx' : ctx.isEmpty = false := by
      cases ctx with
      | nil => exact absurd rfl hctx
      | cons a l => rfl
    simp only [repoList, hty, Bool.not_true, Bool.false_eq_true, if_false,
      pyTruthy, List.isEmpty_cons, Bool.not_false, hctx', Bool.and_true,
      Bool.and_self, if_true]
    simp [applyFilter, pyTruthy, hop, hsw]
    rfl
  · subst hfe
    have hctx' : ctx.isEmpty = false := by
      cases ctx with
      | nil => exact absurd rfl hctx
      | cons a l => rfl
    cases rest with
    | nil => simp [repoList, hty, pyTruthy, hctx', applyFilter, hop]
    | cons x rest2 =>
      cases rest2 with
      | nil => simp [repoList, hty, pyTruthy, hctx', applyFilter, hop]
      | cons y rest3 =>
        simp only [List.length_cons] at hlen
        omega

/-- C3 witness: one instance of each branch — a non-list filter yields the
full set, the malformed 4-element `"="` expression filters to a subset, and
`["="]` raises. -/
theorem repoList_filter_grammar_witness :
    repoList [(Val.str "T", [(Val.str "1", [("id", Val.str "1")])])]
      (Val.str "T") (Val.str "bogus") [("dummy", Val.bool true)] =
      Except.ok [[("id", Val.str "1")]]
    ∧ repoList
        [(Val.str "T",
          [(Val.str "1", [("id", Val.str "1"), ("status", Val.str "pending")]),
           (Val.str "2", [("id", Val.str "2"), ("status", Val.str "done")])])]
        (Val.str "T")
        (Val.list [Val.str "=", Val.str "@entity.status", Val.str "pending",
          Val.str "extra"])
        [("dummy", Val.bool true)] =
        Except.ok [[("id", Val.str "1"), ("status", Val.str "pending")]]
    ∧ repoList [(Val.str "T", [(Val.str "1", [("id", Val.str "1")])])]
        (Val.str "T") (Val.list [Val.str "="]) [("dummy", Val.bool true)] =
        Except.error PyErr.indexError :=
  ⟨(repoList_filter_grammar
      [(Val.str "T", [(Val.str "1", [("id", Val.str "1")])])]
      (Val.str "T") (Val.str "bogus") [("dummy", Val.bool true)] (by rfl)).1
      (Or.inl (fun l h => Val.noConfusion h)),
   (repoList_filter_grammar
      [(Val.str "T",
        [(Val.str "1", [("id", Val.str "1"), ("status", Val.str "pending")]),
         (Val.str "2", [("id", Val.str "2"), ("status", Val.str "done")])])]
      (Val.str "T")
      (Val.list [Val.str "=", Val.str "@entity.status", Val.str "pending",
        Val.str "extra"])
      [("dummy", Val.bool true)] (by rfl)).2.1
      (Val.str "=") "@entity.status" (Val.str "pending") [Val.str "extra"]
      rfl (by rfl) (by rfl) (by simp),
   (repoList_filter_grammar
      [(Val.str "T", [(Val.str "1", [("id", Val.str "1")])])]
      (Val.str "T") (Val.list [Val.str "="]) [("dummy", Val.bool true)]
      (by rfl)).2.2
      (Val.str "=") [] rfl (by decide) (by rfl) (by simp)⟩

/-! ## C10 — persist delete ignores the storage result -/

theorem pyEq_str_right (v : Val) (t : String)
    (h : pyEq v (Val.str t) = true) : v = Val.str t := by
  cases v with
  | str a => simp [pyEq] at h; rw [h]
  | none => simp [pyEq] at h
  | bool b => simp [pyEq] at h
  | int n => simp [pyEq] at h
  | list l => simp [pyEq] at h
  | dict m => simp [pyEq] at h

/-- C10: when `context.entityId` is present and truthy but the entity is not
in storage (so the repository's `delete` returns `False` and leaves the store
unchanged), `_execute_persist` still returns `{"deleted": True, "id": id}` and
appends one `EffectResult` with `success=True` — the boolean from the storage
delete is discarded. -/
theorem executePersist_delete_ignores_miss (effect : List Val)
    (ctx : List (String × Val)) (st : ExecState) (a ty eid : Val)
    (ha : effect[1]? = some a) (hd : pyEq a (Val.str "delete") = true)
    (hty : effect[2]? = some ty)
    (heid : dictGet ctx "entityId" = some eid) (htr : pyTruthy eid = true)
    (hmiss : repoDelete st.store ty eid = Except.ok (false, st.store)) :
    executePersist effect ctx st = Except.ok
      ({ st with effectResults := st.effectResults ++
          [[("effect", Val.str "persist"), ("action", a),
            ("entityType", ty),
            ("data", Val.dict [("deleted", Val.bool true), ("id", eid)]),
            ("success", Val.bool true)]] },
       Val.dict [("deleted", Val.bool true), ("id", eid)]) := by
  have haction := pyEq_str_right a "delete" hd
  subst haction
  simp [executePersist, pyIndex, ha, hty, dictGetD, heid, htr, hmiss, pyEq,
    isNone, bind, Except.bind]

/-- C10 witness: deleting from an empty store. -/
theorem executePersist_delete_ignores_miss_witness :
    executePersist [Val.str "persist", Val.str "delete", Val.str "Task"]
      [("entityId", Val.str "x")] ⟨[], 0, [], [], []⟩ = Except.ok
      (⟨[], 0, [], [],
        [[("effect", Val.str "persist"), ("action", Val.str "delete"),
          ("entityType", Val.str "Task"),
          ("data", Val.dict [("deleted", Val.bool true), ("id", Val.str "x")]),
          ("success", Val.bool true)]]⟩,
       Val.dict [("deleted", Val.bool true), ("id", Val.str "x")]) :=
  executePersist_delete_ignores_miss
    [Val.str "persist", Val.str "delete", Val.str "Task"]
    [("entityId", Val.str "x")] ⟨[], 0, [], [], []⟩
    (Val.str "delete") (Val.str "Task") (Val.str "x")
    (by rfl) (by rfl) (by rfl) (by rfl) (by rfl) (by rfl)

/-! ## Event bus lemmas -/

theorem emitLoop_fst (raises : Nat → Bool) (arg : Val)
    (subs : List EventSubscription) :
    (emitLoop raises arg subs).1 =
      subs.filter (fun s => s.once && !raises s.handler) := by
  induction subs with
  | nil => rfl
  | cons s rest ih =>
    by_cases h : (s.once && !raises s.handler) = true <;>
      simp [emitLoop, List.filter, h, ih]

theorem emitLoop_snd (raises : Nat → Bool) (arg : Val)
    (subs : List EventSubscription) :
    (emitLoop raises arg subs).2 = subs.map (fun s => (s.handler, arg)) := by
  induction subs with
  | nil => rfl
  | cons s rest ih => simp [emitLoop, ih]

theorem strGet_strSet_self {α : Type} (m : List (String × α)) (k : String)
    (v : α) : strGet (strSet m k v) k = some v := by
  induction m with
  | nil => simp [strSet, strGet]
  | cons kv rest ih =>
    by_cases h : kv.1 = k <;> simp [strSet, strGet, h, ih]

theorem count_foldl_erase (rem l : List EventSubscription)
    (s : EventSubscription) :
    (rem.foldl (fun acc x => acc.erase x) l).count s =
      l.count s - rem.count s := by
  induction rem generalizing l with
  | nil => rfl
  | cons r rem ih =>
    rw [List.foldl_cons, ih, List.count_cons, List.count_erase]
    by_cases h : r = s
    · subst h
      simp
      omega
    · have hb : (r == s) = false := by simp [h]
      have hb2 : (s == r) = false := by simp [Ne.symm h]
      simp only [hb, hb2, Bool.false_eq_true, if_false]
      omega

/-! ## C6 — one-shot subscriptions -/

/-- C6 counterexample: a `once=True` handler that raises is not collected in
`to_remove` (the `if sub.once` line sits after the handler call inside the
`try`), so after `emit` returns the subscription is still registered, and the
handler fires three times across three consecutive emits — not once. -/
theorem emit_once_raising_handler_not_removed :
    (emit (fun _ => true) [("E", [⟨"E", 0, true⟩])] "E" Val.none).1 =
      [("E", [⟨"E", 0, true⟩])]
    ∧ ((emit (fun _ => true) [("E", [⟨"E", 0, true⟩])] "E" Val.none).2.length
        + (emit (fun _ => true)
            (emit (fun _ => true) [("E", [⟨"E", 0, true⟩])] "E" Val.none).1
            "E" Val.none).2.length
        + (emit (fun _ => true)
            (emit (fun _ => true)
              (emit (fun _ => true) [("E", [⟨"E", 0, true⟩])] "E" Val.none).1
              "E" Val.none).1
            "E" Val.none).2.length) = 3 := by
  constructor <;> rfl

/-- C6 amended: a `once=True` subscription whose handler returns without
raising is removed by the end of `emit`; consequently a single such
subscription fires exactly once across three consecutive emits of its event.
(A raising `once` handler is not removed — see the counterexample.) -/
theorem emit_once_removed_when_handler_returns (raises : Nat → Bool)
    (bus : EventBusState) (event : String) (payload : Val)
    (subs : List EventSubscription) (s : EventSubscription)
    (hbus : strGet bus event = some subs) (_hmem : s ∈ subs)
    (honce : s.once = true) (hnr : raises s.handler = false) :
    s ∉ ((strGet (emit raises bus event payload).1 event).getD [])
    ∧ (∀ (r2 : Nat → Bool) (e2 : String) (p1 p2 p3 : Val)
        (s2 : EventSubscription), s2.once = true → r2 s2.handler = false →
        ((emit r2 [(e2, [s2])] e2 p1).2.length
          + (emit r2 (emit r2 [(e2, [s2])] e2 p1).1 e2 p2).2.length
          + (emit r2 (emit r2 (emit r2 [(e2, [s2])] e2 p1).1 e2 p2).1
              e2 p3).2.length) = 1) := by
  constructor
  · unfold emit
    rw [hbus]
    simp only [strGet_strSet_self, Option.getD_some]
    have hcount : ((emitLoop raises
        (if pyTruthy payload = true then payload else Val.dict []) subs).1.foldl
          (fun acc x => acc.erase x) subs).count s = 0 := by
      rw [count_foldl_erase, emitLoop_fst,
        List.count_filter (by simp [honce, hnr])]
      omega
    exact List.count_eq_zero.mp hcount
  · intro r2 e2 p1 p2 p3 s2 honce2 hnr2
    have h1 : strGet [(e2, [s2])] e2 = some [s2] := by simp [strGet]
    have hloop : emitLoop r2 (if pyTruthy p1 = true then p1 else Val.dict [])
        [s2] = ([s2], [(s2.handler,
          if pyTruthy p1 = true then p1 else Val.dict [])]) := by
      simp [emitLoop, honce2, hnr2]
    have hstep1 : (emit r2 [(e2, [s2])] e2 p1).1 = [(e2, [])] ∧
        (emit r2 [(e2, [s2])] e2 p1).2.length = 1 := by
      unfold emit
      rw [h1]
      simp [hloop, strSet]
    have h2 : strGet [(e2, ([] : List EventSubscription))] e2 = some [] := by
      simp [strGet]
    have hstep2 : (emit r2 [(e2, ([] : List EventSubscription))] e2 p2) =
        ([(e2, [])], []) := by
      unfold emit
      rw [h2]
      simp [emitLoop, strSet]
    have hstep3 : (emit r2 [(e2, ([] : List EventSubscription))] e2 p3) =
        ([(e2, [])], []) := by
      unfold emit
      rw [h2]
      simp [emitLoop, strSet]
    rw [hstep1.2, hstep1.1, hstep2, hstep3]
    rfl

/-- C6 witness: a non-raising one-shot handler on a concrete bus. -/
theorem emit_once_removed_when_handler_returns_witness :
    (⟨"E", 0, true⟩ : EventSubscription) ∉
      ((strGet (emit (fun _ => false) [("E", [⟨"E", 0, true⟩])] "E"
          Val.none).1 "E").getD [])
    ∧ (∀ (r2 : Nat → Bool) (e2 : String) (p1 p2 p3 : Val)
        (s2 : EventSubscription), s2.once = true → r2 s2.handler = false →
        ((emit r2 [(e2, [s2])] e2 p1).2.length
          + (emit r2 (emit r2 [(e2, [s2])] e2 p1).1 e2 p2).2.length
          + (emit r2 (emit r2 (emit r2 [(e2, [s2])] e2 p1).1 e2 p2).1
              e2 p3).2.length) = 1) :=
  emit_once_removed_when_handler_returns (fun _ => false)
    [("E", [⟨"E", 0, true⟩])] "E" Val.none [⟨"E", 0, true⟩] ⟨"E", 0, true⟩
    (by rfl) (by simp) (by rfl) (by rfl)

/-! ## C7 — a raising handler does not stop the others -/

/-- C7: `emit` is total (a raising handler is caught at the bus boundary and
the exception does not propagate), and the invocation trace is exactly one
call per subscription, in subscription order, each passed `payload or {}` —
in particular every handler subscribed after a raising one is still
invoked. -/
theorem emit_invokes_every_handler_in_order (raises : Nat → Bool)
    (bus : EventBusState) (event : String) (payload : Val)
    (subs : List EventSubscription)
    (hbus : strGet bus event = some subs) :
    (emit raises bus event payload).2 =
      subs.map (fun s => (s.handler,
        if pyTruthy payload = true then payload else Val.dict [])) := by
  unfold emit
  rw [hbus]
  simp [emitLoop_snd]

/-- C7 witness: the first handler raises, the second still receives the
payload. -/
theorem emit_invokes_every_handler_in_order_witness :
    (emit (fun h => h == 0)
      [("E", [⟨"E", 0, false⟩, ⟨"E", 1, false⟩])] "E"
      (Val.dict [("data", Val.str "test")])).2 =
      [(0, Val.dict [("data", Val.str "test")]),
       (1, Val.dict [("data", Val.str "test")])] := by
  rw [emit_invokes_every_handler_in_order (fun h => h == 0)
    [("E", [⟨"E", 0, false⟩, ⟨"E", 1, false⟩])] "E"
    (Val.dict [("data", Val.str "test")])
    [⟨"E", 0, false⟩, ⟨"E", 1, false⟩] (by rfl)]
  rfl

/-! ## C9 — broadcast scoping -/

theorem sendAll_fst (fails : Nat → Bool) (conns : List Nat) :
    (sendAll fails conns).1 = conns := by
  induction conns with
  | nil => rfl
  | cons c rest ih => simp [sendAll, ih]

theorem broadcastRecipients_eq (m : ConnState) (ty eid : String) :
    broadcastRecipients m ty eid = scopedConns m ty eid ++ m.global := by
  unfold broadcastRecipients scopedConns
  cases h1 : strGet m.active ty with
  | none => rfl
  | some inner => cases h2 : strGet inner eid <;> simp [h2]

/-- C9: `broadcast_to_entity(type, id, message)` attempts a send to exactly
the connections scoped to `(type, id)` followed by every global connection:
a connection is attempted iff it is in the scoped list or the global list, so
a connection scoped only to a different id (and not global) never receives
the message. -/
theorem broadcastToEntity_scoping (fails : Nat → Bool) (m : ConnState)
    (ty eid : String) :
    (broadcastToEntity fails m ty eid).2 = scopedConns m ty eid ++ m.global
    ∧ (∀ c, c ∈ (broadcastToEntity fails m ty eid).2 ↔
        (c ∈ scopedConns m ty eid ∨ c ∈ m.global))
    ∧ (∀ c eid2, c ∈ scopedConns m ty eid2 → c ∉ scopedConns m ty eid →
        c ∉ m.global → c ∉ (broadcastToEntity fails m ty eid).2) := by
  have heq : (broadcastToEntity fails m ty eid).2 =
      scopedConns m ty eid ++ m.global := by
    unfold broadcastToEntity
    simp [sendAll_fst, broadcastRecipients_eq]
  refine ⟨heq, fun c => ?_, fun c eid2 _ hns hng hmem => ?_⟩
  · rw [heq]
    simp
  · rw [heq] at hmem
    rcases List.mem_append.mp hmem with h | h
    · exact hns h
    · exact hng h

/-- C9 witness: with a connection `1` scoped to `(T,1)`, a connection `2`
scoped to `(T,2)` and a global connection `3`, broadcasting to `(T,1)`
attempts exactly `[1, 3]`, and connection `2` is not attempted. -/
theorem broadcastToEntity_scoping_witness :
    (broadcastToEntity (fun _ => false)
      ⟨[("T", [("1", [1]), ("2", [2])])], [3]⟩ "T" "1").2 = [1, 3]
    ∧ (2 : Nat) ∉ (broadcastToEntity (fun _ => false)
      ⟨[("T", [("1", [1]), ("2", [2])])], [3]⟩ "T" "1").2 := by
  have h := broadcastToEntity_scoping (fun _ => false)
    ⟨[("T", [("1", [1]), ("2", [2])])], [3]⟩ "T" "1"
  constructor
  · rw [h.1]
    rfl
  · exact h.2.2 2 "2" (by decide) (by decide) (by decide)

/-! ## C8 — the set effect's audit record -/

/-- The target shapes for which `_execute_set` performs no context
navigation: a non-string target, a string without the `@` sigil, an absent
root, or fewer than two segments. -/
def setTargetDead (target : Val) (ctx : List (String × Val)) : Bool :=
  match target with
  | Val.str s =>
    if pyStartsWith s "@" then
      let parts := pySplitDot (pyDrop1 s)
      !(dictGet ctx (parts.headD "")).isSome || !(decide (1 < parts.length))
    else true
  | _ => true

theorem setCtx_dead (target value : Val) (ctx : List (String × Val))
    (h : setTargetDead target ctx = true) :
    setCtx target value ctx = Except.ok ctx := by
  cases target with
  | str s =>
    by_cases hs : pyStartsWith s "@" = true
    · unfold setCtx
      simp only [setTargetDead, hs, if_true, Bool.or_eq_true,
        List.headD_eq_head?_getD] at h
      simp only [hs, if_true, List.headD_eq_head?_getD]
      cases hr : dictGet ctx ((pySplitDot (pyDrop1 s)).head?.getD "") with
      | none => rfl
      | some rootVal =>
        have hlen : ¬ 1 < (pySplitDot (pyDrop1 s)).length := by
          rcases h with h | h
          · rw [hr] at h
            simp at h
          · simpa using h
        simp [hlen]
    · simp [setCtx, hs]
  | none => rfl
  | bool b => rfl
  | int n => rfl
  | list l => rfl
  | dict m => rfl

/-- C8 counterexample: a 3-element set effect whose live navigation lands on
a non-dict value (`setattr(5, "x", 1)`): `_execute_set` raises
`AttributeError` and appends no `EffectResult` at all, refuting "appends
exactly one EffectResult with success=true" for every set effect and
context. -/
theorem executeSet_nondict_target_raises :
    executeSet [Val.str "set", Val.str "@root.x", Val.int 1]
      [("root", Val.int 5)] ⟨[], 0, [], [], []⟩ =
      Except.error PyErr.attributeError := by
  rfl

/-- C8 amended: whenever `_execute_set` returns (the navigated assignment
object is a map — in particular whenever the target is not an `@`-string
with at least two segments or its root is absent, in which case the context
is left unmutated), it appends exactly one `EffectResult` with
`success=True` recording the target and the resolved value, and returns the
value; but when the live walk ends on a non-map value, `setattr` raises and
no result is appended. -/
theorem executeSetCore_success_audit (target value : Val)
    (ctx : List (String × Val)) (st : ExecState)
    (out : ExecState × List (String × Val) × Val)
    (h : executeSetCore target value ctx st = Except.ok out) :
    out.1.effectResults = st.effectResults ++
      [[("effect", Val.str "set"), ("target", target), ("value", value),
        ("success", Val.bool true)]]
    ∧ out.2.2 = value
    ∧ (setTargetDead target ctx = true → out.2.1 = ctx) := by
  unfold executeSetCore at h
  cases hE : setCtx target value ctx with
  | error e => rw [hE] at h; exact absurd h (by simp)
  | ok ctx2 =>
    rw [hE] at h
    simp only [Except.ok.injEq] at h
    subst h
    refine ⟨rfl, rfl, fun hdead => ?_⟩
    have := setCtx_dead target value ctx hdead
    rw [hE] at this
    simpa using this

/-- C8 witness: the spec's own example — `["set", "@entity.status", "done"]`
against `{"entity": {"status": "pending"}}`. -/
theorem executeSetCore_success_audit_witness :
    ((⟨⟨[], 0, [], [],
        [[("effect", Val.str "set"), ("target", Val.str "@entity.status"),
          ("value", Val.str "done"), ("success", Val.bool true)]]⟩,
      [("entity", Val.dict [("status", Val.str "done")])],
      Val.str "done"⟩ : ExecState × List (String × Val) × Val)).1.effectResults
      = ([] : List (List (String × Val))) ++
        [[("effect", Val.str "set"), ("target", Val.str "@entity.status"),
          ("value", Val.str "done"), ("success", Val.bool true)]]
    ∧ ((⟨⟨[], 0, [], [],
        [[("effect", Val.str "set"), ("target", Val.str "@entity.status"),
          ("value", Val.str "done"), ("success", Val.bool true)]]⟩,
      [("entity", Val.dict [("status", Val.str "done")])],
      Val.str "done"⟩ : ExecState × List (String × Val) × Val)).2.2 =
        Val.str "done"
    ∧ (setTargetDead (Val.str "@entity.status")
          [("entity", Val.dict [("status", Val.str "pending")])] = true →
        ((⟨⟨[], 0, [], [],
            [[("effect", Val.str "set"),
              ("target", Val.str "@entity.status"),
              ("value", Val.str "done"), ("success", Val.bool true)]]⟩,
          [("entity", Val.dict [("status", Val.str "done")])],
          Val.str "done"⟩ :
            ExecState × List (String × Val) × Val)).2.1 =
          [("entity", Val.dict [("status", Val.str "pending")])]) :=
  executeSetCore_success_audit (Val.str "@entity.status") (Val.str "done")
    [("entity", Val.dict [("status", Val.str "pending")])] ⟨[], 0, [], [], []⟩
    (⟨⟨[], 0, [], [],
        [[("effect", Val.str "set"), ("target", Val.str "@entity.status"),
          ("value", Val.str "done"), ("success", Val.bool true)]]⟩,
      [("entity", Val.dict [("status", Val.str "done")])],
      Val.str "done"⟩) (by rfl)

/-! ## C1 — dispatcher error behaviour -/

/-- An environment in which the wrapped numerical framework is absent (the
`ImportError` path of `_execute_pytorch`); the opaque compute hooks are
inert. -/
def noTorchEnv : PyEnv :=
  ⟨false, fun _ _ => Except.ok Val.none, fun _ _ _ => Except.ok Val.none⟩

/-- C1 counterexample: the recognized tag `fetch` with no positional
arguments — `execute(["fetch"], {})` raises `IndexError` from `effect[1]`
instead of degrading to `null`. -/
theorem execute_short_fetch_raises :
    execute noTorchEnv [Val.str "fetch"] [] ⟨[], 0, [], [], []⟩ =
      Except.error PyErr.indexError := by
  rfl

/-- C1 amended: `execute` on an empty effect returns `null` with nothing
changed, and an effect whose tag is a string matching no recognized tag and
none of the `nn/`, `train/`, `tensor/` prefixes is a no-op returning `null`;
but a recognized tag with fewer positional arguments than its branch reads
raises `IndexError` (see the counterexample), and a non-string tag reaching
the `startswith` calls raises `AttributeError`. -/
theorem execute_empty_and_unknown_tags (env : PyEnv)
    (ctx : List (String × Val)) (st : ExecState) :
    execute env [] ctx st = Except.ok (st, ctx, Val.none)
    ∧ ∀ (s : String) (args : List Val),
        (s == "fetch") = false → (s == "persist") = false →
        (s == "call_service") = false → (s == "set") = false →
        (s == "render_ui") = false → (s == "render-ui") = false →
        (s == "navigate") = false → (s == "notify") = false →
        (s == "emit") = false →
        pyStartsWith s "nn/" = false → pyStartsWith s "train/" = false →
        pyStartsWith s "tensor/" = false →
        execute env (Val.str s :: args) ctx st = Except.ok (st, ctx, Val.none) := by
  refine ⟨rfl, ?_⟩
  intro s args h1 h2 h3 h4 h5 h6 h7 h8 h9 h10 h11 h12
  simp [execute, pyEq, h1, h2, h3, h4, h5, h6, h7, h8, h9, h10, h11, h12]

/-- C1 witness: the test suite's own unknown tag, `["unknown_effect",
"arg"]`, is a no-op. -/
theorem execute_empty_and_unknown_tags_witness :
    execute noTorchEnv [Val.str "unknown_effect", Val.str "arg"] []
      ⟨[], 0, [], [], []⟩ =
      Except.ok (⟨[], 0, [], [], []⟩, [], Val.none) :=
  (execute_empty_and_unknown_tags noTorchEnv [] ⟨[], 0, [], [], []⟩).2
    "unknown_effect" [Val.str "arg"] (by rfl) (by rfl) (by rfl) (by rfl)
    (by rfl) (by rfl) (by rfl) (by rfl) (by rfl) (by rfl) (by rfl) (by rfl)

end Orbital
